import Mathlib

/-!
Verification of the PantryManager planning-and-recommendation pipeline.

Shallow embedding of the JavaScript domain services:
  * recommendations (unit table, `normalizeToBase`, `evaluateRecipeRecommendation`,
    `compareRecommendationRecords`, `rankRecipeRecommendations`),
  * shared unit conversion (`normalizeToFamilyBase`),
  * planner demand aggregation (`aggregateIngredientDemand`),
  * shopping list generation (`generateShoppingItems`),
  * sync envelope comparison and migration (`compareSyncEnvelopes`, `migrateSyncEnvelope`),
  * retention policy (`applyGeneralRetention`).

Modelling conventions:
  * JavaScript numbers are modelled by `ℚ` (the code only ever multiplies, divides,
    adds and compares decimal literals; `NaN`/`Infinity` inputs are outside the model
    except where the code itself manufactures them, e.g. the `+Infinity` expiry
    sentinel, modelled by `⊤ : WithTop ℤ`).
  * `Date.parse` / `new Date(s).getTime()` is an environment facility: it is passed
    in as an explicit parameter `parse : String → Option Int` (`none` models `NaN`).
  * A JavaScript string field that may be absent/undefined is modelled by `String`
    with `""` playing the role of the falsy absent value, or by `Option` where the
    code distinguishes `null`/non-object explicitly.
  * `x.toFixed(d)` followed by `Number(...)` is modelled by exact decimal rounding
    (round half towards `+∞`, the rounding of `toFixed` on exact values).
  * `String.prototype.localeCompare` is modelled as code-point lexicographic
    comparison of the underlying character lists.
-/

namespace Pantry

/-- Three-way comparison induced by a linear order, returning an `Ordering`.
Used to model the sign of a numeric JavaScript comparator return value. -/
def cmpo {β : Type _} [LinearOrder β] (x y : β) : Ordering :=
  if x < y then .lt else if x = y then .eq else .gt

theorem cmpo_lt_iff {β : Type _} [LinearOrder β] {x y : β} : cmpo x y = .lt ↔ x < y := by
  unfold cmpo
  rcases lt_trichotomy x y with h | h | h
  · simp [h]
  · simp [h, lt_irrefl]
  · simp [not_lt_of_gt h, ne_of_gt h, h]

theorem cmpo_eq_iff {β : Type _} [LinearOrder β] {x y : β} : cmpo x y = .eq ↔ x = y := by
  unfold cmpo
  rcases lt_trichotomy x y with h | h | h
  · simp [h, ne_of_lt h]
  · simp [h, lt_irrefl]
  · simp [not_lt_of_gt h, ne_of_gt h]

theorem cmpo_gt_iff {β : Type _} [LinearOrder β] {x y : β} : cmpo x y = .gt ↔ y < x := by
  unfold cmpo
  rcases lt_trichotomy x y with h | h | h
  · simp [h, not_lt_of_gt h]
  · simp [h, lt_irrefl]
  · simp [not_lt_of_gt h, ne_of_gt h, h]

theorem cmpo_ne_gt_iff {β : Type _} [LinearOrder β] {x y : β} : cmpo x y ≠ .gt ↔ x ≤ y := by
  rw [Ne, cmpo_gt_iff, not_lt]

theorem cmpo_swap {β : Type _} [LinearOrder β] (x y : β) : (cmpo x y).swap = cmpo y x := by
  unfold cmpo
  rcases lt_trichotomy x y with h | h | h
  · simp [h, not_lt_of_gt h, ne_of_lt h, ne_of_gt h, Ordering.swap]
  · simp [h, lt_irrefl, Ordering.swap]
  · simp [h, not_lt_of_gt h, ne_of_lt h, ne_of_gt h, Ordering.swap]

theorem cmpo_dual {β : Type _} [LinearOrder β] (x y : β) :
    cmpo (OrderDual.toDual x) (OrderDual.toDual y) = cmpo y x := by
  unfold cmpo
  rcases lt_trichotomy y x with h | h | h
  · simp [h, OrderDual.toDual_lt_toDual, ne_of_lt h, ne_of_gt h, not_lt_of_gt h,
      OrderDual.toDual_inj]
  · simp [h, lt_irrefl]
  · simp [h, OrderDual.toDual_lt_toDual, ne_of_lt h, ne_of_gt h, not_lt_of_gt h,
      OrderDual.toDual_inj]

theorem cmpo_lex {β γ : Type _} [LinearOrder β] [LinearOrder γ] (x₁ y₁ : β) (x₂ y₂ : γ) :
    cmpo (toLex (x₁, x₂)) (toLex (y₁, y₂)) = (cmpo x₁ y₁).then (cmpo x₂ y₂) := by
  rcases lt_trichotomy x₁ y₁ with h | h | h
  · have hlt : toLex (x₁, x₂) < toLex (y₁, y₂) := by
      rw [Prod.Lex.lt_iff]; exact Or.inl h
    rw [cmpo, if_pos hlt, cmpo, if_pos h]
    rfl
  · subst h
    have hlt : toLex (x₁, x₂) < toLex (x₁, y₂) ↔ x₂ < y₂ := by
      rw [Prod.Lex.lt_iff]; simp [lt_irrefl]
    have heq : (toLex (x₁, x₂) = toLex (x₁, y₂)) ↔ x₂ = y₂ := by
      constructor
      · intro h; cases h; rfl
      · intro h; cases h; rfl
    have hc : cmpo x₁ x₁ = .eq := cmpo_eq_iff.mpr rfl
    rw [hc]
    show cmpo (toLex (x₁, x₂)) (toLex (x₁, y₂)) = cmpo x₂ y₂
    unfold cmpo
    rcases lt_trichotomy x₂ y₂ with h2 | h2 | h2
    · simp [h2, hlt, heq]
    · simp [h2, hlt, heq, lt_irrefl]
    · simp [hlt, heq, not_lt_of_gt h2, ne_of_gt h2, h2]
  · have h1 : ¬ toLex (x₁, x₂) < toLex (y₁, y₂) := by
      rw [Prod.Lex.lt_iff]
      rintro (hl | ⟨rfl, _⟩)
      · exact absurd hl (not_lt_of_gt h)
      · exact lt_irrefl _ h
    have h2 : toLex (x₁, x₂) ≠ toLex (y₁, y₂) := by
      intro hEq
      cases hEq
      exact lt_irrefl _ h
    rw [cmpo, if_neg h1, if_neg h2, cmpo, if_neg (not_lt_of_gt h), if_neg (ne_of_gt h)]
    rfl

/-- The shape `if x ≠ y then (if x < y then lt else gt) else rest` used by each
numeric tie-break step of the recommendation comparator equals `(cmpo x y).then rest`. -/
theorem step_then {β : Type _} [LinearOrder β] (x y : β) (rest : Ordering) :
    (if x ≠ y then (if x < y then Ordering.lt else Ordering.gt) else rest) =
      (cmpo x y).then rest := by
  unfold cmpo
  rcases lt_trichotomy x y with h | h | h
  · simp [h, ne_of_lt h, Ordering.then]
  · simp [h, lt_irrefl, Ordering.then]
  · simp [not_lt_of_gt h, ne_of_gt h, Ordering.then]

/-- JavaScript `a || b` on strings, where `""` is the only falsy string in the model. -/
def jsOr (a b : String) : String := if a = "" then b else a

/-- `Number(x.toFixed(3))` on an exact value: round half towards `+∞` at 3 decimals. -/
def round3 (q : ℚ) : ℚ := (round (q * 1000) : ℤ) / 1000

/-- `Number(x.toFixed(6))` on an exact value: round half towards `+∞` at 6 decimals. -/
def round6 (q : ℚ) : ℚ := (round (q * 1000000) : ℤ) / 1000000

/-- `String.prototype.localeCompare`, modelled as code-point lexicographic order on
the underlying character lists (only the sign of the JavaScript return value is
ever consumed). -/
def localeCompare (s t : String) : Ordering := cmpo s.data t.data

/-- Conversion metadata: `{family, baseUnit, toBaseFactor}`. -/
structure UnitMeta where
  family : String
  baseUnit : String
  toBaseFactor : ℚ
deriving DecidableEq, Repr

/-- The `UNIT_TO_BASE` table of the recommendations service (`Object` lookup). -/
def UNIT_TO_BASE (unit : String) : Option UnitMeta :=
  match unit with
  | "g" => some ⟨"mass", "g", 1⟩
  | "kg" => some ⟨"mass", "g", 1000⟩
  | "oz" => some ⟨"mass", "g", 28.349523125⟩
  | "lb" => some ⟨"mass", "g", 453.59237⟩
  | "ml" => some ⟨"volume", "ml", 1⟩
  | "l" => some ⟨"volume", "ml", 1000⟩
  | "tsp" => some ⟨"volume", "ml", 4.92892159375⟩
  | "tbsp" => some ⟨"volume", "ml", 14.78676478125⟩
  | "cup" => some ⟨"volume", "ml", 240⟩
  | "count" => some ⟨"count", "count", 1⟩
  | "unit" => some ⟨"count", "count", 1⟩
  | "item" => some ⟨"count", "count", 1⟩
  | "pcs" => some ⟨"count", "count", 1⟩
  | _ => none

/-- Result of either unit normalizer: `{ok:false, reason}` or
`{ok:true, family, baseUnit, quantity}`. -/
inductive NormalizeResult where
  | err (reason : String)
  | ok (family baseUnit : String) (quantity : ℚ)
deriving DecidableEq, Repr

/-- `reason` field read off a normalize result; `""` models the `undefined`
read on a success record (falsy for `||`). -/
def NormalizeResult.reasonStr : NormalizeResult → String
  | .err r => r
  | .ok _ _ _ => ""

def NormalizeResult.isOk : NormalizeResult → Bool
  | .err _ => false
  | .ok _ _ _ => true

/-- `normalizeToBase` of the recommendations service.  In the `ℚ` model every
quantity is a finite number, so `!Number.isFinite(quantity)` is identically false
and the quantity guard reduces to `quantity < 0`. -/
def normalizeToBase (quantity : ℚ) (unit : String) : NormalizeResult :=
  match UNIT_TO_BASE unit with
  | none => .err ("Unsupported unit: " ++ (if unit = "" then "(empty)" else unit) ++ ".")
  | some meta =>
    if quantity < 0 then
      .err ("Invalid quantity: " ++ toString quantity ++
        ". Quantity must be a finite number greater than or equal to 0.")
    else
      .ok meta.family meta.baseUnit (quantity * meta.toBaseFactor)

/-- The `UNIT_MAP` table of the shared unit-conversion utility. -/
def UNIT_MAP (unit : String) : Option UnitMeta :=
  match unit with
  | "g" => some ⟨"mass", "g", 1⟩
  | "kg" => some ⟨"mass", "g", 1000⟩
  | "ml" => some ⟨"volume", "ml", 1⟩
  | "l" => some ⟨"volume", "ml", 1000⟩
  | "count" => some ⟨"count", "count", 1⟩
  | _ => none

/-- `getUnitMeta` of the shared unit-conversion utility (`UNIT_MAP[unit] || null`). -/
def getUnitMeta (unit : String) : Option UnitMeta := UNIT_MAP unit

/-- `normalizeToFamilyBase` of the shared unit-conversion utility.  The quantity
guard is `quantity <= 0` here, and the converted quantity passes through
`Number((...).toFixed(6))`. -/
def normalizeToFamilyBase (quantity : ℚ) (unit : String) : NormalizeResult :=
  match getUnitMeta unit with
  | none => .err ("Unsupported unit " ++ (if unit = "" then "(empty)" else unit) ++ ".")
  | some meta =>
    if quantity ≤ 0 then
      .err "Quantity must be a finite number greater than 0 for conversion."
    else
      .ok meta.family meta.baseUnit (round6 (quantity * meta.toBaseFactor))

/-- Recipe ingredient: reference to an inventory item plus a required quantity. -/
structure Ingredient where
  inventoryItemId : String
  quantity : ℚ
  unit : String
deriving DecidableEq, Repr

structure Recipe where
  id : String
  name : String
  ingredients : List Ingredient
deriving DecidableEq, Repr

/-- Inventory item; `expiryDate = ""` models an absent/falsy expiry. -/
structure InventoryItem where
  id : String
  name : String
  quantity : ℚ
  unit : String
  expiryDate : String
  category : String
deriving DecidableEq, Repr

/-- Per-ingredient shortage record.  `availableQuantity`/`availableUnit` are
`none` on the branch where the inventory item itself is missing (those keys are
not set by the source there). -/
structure Shortage where
  inventoryItemId : String
  requiredQuantity : ℚ
  requiredUnit : String
  availableQuantity : Option ℚ
  availableUnit : Option String
  missingQuantity : ℚ
  missingUnit : String
  reason : String
deriving DecidableEq, Repr

structure Coverage where
  matched : ℕ
  total : ℕ
  ratio : ℚ
deriving DecidableEq, Repr

/-- `rankingFactors`; `daysUntilMostUrgentExpiry` lives in `WithTop ℤ` where `⊤`
models the JavaScript `+Infinity` sentinel. -/
structure RankingFactors where
  daysUntilMostUrgentExpiry : WithTop ℤ
  hasExpiringIngredientSignal : Bool
  coverageRatio : ℚ
  shortageCount : ℕ
deriving DecidableEq, Repr

structure RecommendationRecord where
  recipe : Recipe
  matchStatus : String
  coverage : Coverage
  shortages : List Shortage
  rankingFactors : RankingFactors
deriving DecidableEq, Repr

def MATCH_STATUS_FULLY : String := "fully_satisfiable"

def MATCH_STATUS_PARTIALLY : String := "partially_satisfiable"

def MS_PER_DAY : ℤ := 24 * 60 * 60 * 1000

/-- `computeDaysUntilExpiry`: `""` (falsy) or an unparseable date gives `+Infinity`
(`⊤`); otherwise `Math.floor((expiryTime - now) / MS_PER_DAY)`, i.e. floor
division of integers. -/
def computeDaysUntilExpiry (parse : String → Option Int) (expiryDateIso : String)
    (now : Int) : WithTop ℤ :=
  if expiryDateIso = "" then ⊤
  else
    match parse expiryDateIso with
    | none => ⊤
    | some expiryTime => (Int.fdiv (expiryTime - now) MS_PER_DAY : ℤ)

/-- Loop state of the ingredient loop in `evaluateRecipeRecommendation`. -/
structure EvalAcc where
  shortages : List Shortage
  matched : ℕ
  mostUrgent : WithTop ℤ
deriving DecidableEq, Repr

/-- `UNIT_TO_BASE[unit].toBaseFactor` — only ever read on a unit that is known to
be registered (the `required.ok` branch). -/
def toBaseFactorOf (unit : String) : ℚ :=
  match UNIT_TO_BASE unit with
  | some meta => meta.toBaseFactor
  | none => 0

/-- One iteration of the `for (const ingredient of recipe.ingredients)` loop of
`evaluateRecipeRecommendation`. -/
def evalStep (parse : String → Option Int) (inventoryById : String → Option InventoryItem)
    (now : Int) (acc : EvalAcc) (ingredient : Ingredient) : EvalAcc :=
  match inventoryById ingredient.inventoryItemId with
  | none =>
    { acc with
      shortages := acc.shortages ++
        [{ inventoryItemId := ingredient.inventoryItemId
           requiredQuantity := ingredient.quantity
           requiredUnit := ingredient.unit
           availableQuantity := none
           availableUnit := none
           missingQuantity := ingredient.quantity
           missingUnit := ingredient.unit
           reason := "Inventory item is not available." }] }
  | some inventoryItem =>
    let required := normalizeToBase ingredient.quantity ingredient.unit
    let available := normalizeToBase inventoryItem.quantity inventoryItem.unit
    match required, available with
    | .ok rFamily _ rQuantity, .ok aFamily _ aQuantity =>
      if rFamily ≠ aFamily then
        { acc with
          shortages := acc.shortages ++
            [{ inventoryItemId := ingredient.inventoryItemId
               requiredQuantity := ingredient.quantity
               requiredUnit := ingredient.unit
               availableQuantity := some inventoryItem.quantity
               availableUnit := some inventoryItem.unit
               missingQuantity := ingredient.quantity
               missingUnit := ingredient.unit
               reason := "Unit family mismatch (" ++ rFamily ++ " vs " ++ aFamily ++ ")." }] }
      else
        let missingInBase := max (rQuantity - aQuantity) 0
        if missingInBase > 0 then
          { acc with
            shortages := acc.shortages ++
              [{ inventoryItemId := ingredient.inventoryItemId
                 requiredQuantity := ingredient.quantity
                 requiredUnit := ingredient.unit
                 availableQuantity := some inventoryItem.quantity
                 availableUnit := some inventoryItem.unit
                 missingQuantity := round6 (missingInBase / toBaseFactorOf ingredient.unit)
                 missingUnit := ingredient.unit
                 reason := "Insufficient quantity available after unit normalization." }] }
        else
          let daysUntilExpiry := computeDaysUntilExpiry parse inventoryItem.expiryDate now
          { acc with
            matched := acc.matched + 1
            mostUrgent :=
              if daysUntilExpiry < acc.mostUrgent then daysUntilExpiry else acc.mostUrgent }
    | required, available =>
      -- `!required.ok || !available.ok`: reason is `required.reason || available.reason`.
      { acc with
        shortages := acc.shortages ++
          [{ inventoryItemId := ingredient.inventoryItemId
             requiredQuantity := ingredient.quantity
             requiredUnit := ingredient.unit
             availableQuantity := some inventoryItem.quantity
             availableUnit := some inventoryItem.unit
             missingQuantity := ingredient.quantity
             missingUnit := ingredient.unit
             reason := jsOr required.reasonStr available.reasonStr }] }

/-- `evaluateRecipeRecommendation(recipe, inventoryById, now)`. -/
def evaluateRecipeRecommendation (parse : String → Option Int) (recipe : Recipe)
    (inventoryById : String → Option InventoryItem) (now : Int) : RecommendationRecord :=
  let acc := recipe.ingredients.foldl (evalStep parse inventoryById now) ⟨[], 0, ⊤⟩
  let totalIngredients := recipe.ingredients.length
  let ratio : ℚ := if totalIngredients = 0 then 0 else (acc.matched : ℚ) / totalIngredients
  { recipe := recipe
    matchStatus :=
      if acc.shortages.length = 0 then MATCH_STATUS_FULLY else MATCH_STATUS_PARTIALLY
    coverage := ⟨acc.matched, totalIngredients, ratio⟩
    shortages := acc.shortages
    rankingFactors :=
      ⟨acc.mostUrgent, decide (acc.mostUrgent ≠ ⊤), ratio, acc.shortages.length⟩ }

/-- `compareRecommendationRecords(a, b)`.  The source returns a signed number and
callers only consume its sign, so the model returns the `Ordering` carrying that
sign.  Note `Infinity - Infinity` is never computed by the source either: each
numeric subtraction is guarded by a `!==` check. -/
def compareRecommendationRecords (a b : RecommendationRecord) : Ordering :=
  if a.rankingFactors.daysUntilMostUrgentExpiry ≠ b.rankingFactors.daysUntilMostUrgentExpiry
  then
    (if a.rankingFactors.daysUntilMostUrgentExpiry < b.rankingFactors.daysUntilMostUrgentExpiry
     then .lt else .gt)
  else if b.coverage.ratio ≠ a.coverage.ratio then
    -- `b.coverage.ratio - a.coverage.ratio`: negative (a first) iff b.ratio < a.ratio.
    (if b.coverage.ratio < a.coverage.ratio then .lt else .gt)
  else if a.shortages.length ≠ b.shortages.length then
    (if a.shortages.length < b.shortages.length then .lt else .gt)
  else
    match localeCompare a.recipe.name b.recipe.name with
    | .eq => localeCompare a.recipe.id b.recipe.id
    | nameComparison => nameComparison

/-- Non-strict comparator order: `compare(a, b) <= 0` in the source. -/
def recLE (a b : RecommendationRecord) : Prop := compareRecommendationRecords a b ≠ .gt

instance : DecidableRel recLE := fun _ _ => instDecidableNot

/-- `new Map(items.map(i => [i.id, i]))` lookup — the last item with a given id
wins, exactly as later `Map` entries overwrite earlier ones. -/
def inventoryLookup (items : List InventoryItem) : String → Option InventoryItem :=
  fun id => items.reverse.find? (fun item => item.id = id)

structure RecommendationResponse where
  fullySatisfiable : List RecommendationRecord
  partiallySatisfiable : List RecommendationRecord
  allRanked : List RecommendationRecord
deriving DecidableEq, Repr

/-- `rankRecipeRecommendations(recipes, inventoryItems, options)`; the resolved
`options.now` instant is the `now` parameter.  `Array.prototype.sort` (stable
since ES2019) is modelled by stable insertion sort on `compare(a,b) <= 0`. -/
def rankRecipeRecommendations (parse : String → Option Int) (recipes : List Recipe)
    (inventoryItems : List InventoryItem) (now : Int) : RecommendationResponse :=
  let inventoryById := inventoryLookup inventoryItems
  let allRanked :=
    (recipes.map (fun recipe => evaluateRecipeRecommendation parse recipe inventoryById now)
      ).insertionSort recLE
  { fullySatisfiable := allRanked.filter (fun entry => entry.matchStatus = MATCH_STATUS_FULLY)
    partiallySatisfiable :=
      allRanked.filter (fun entry => entry.matchStatus = MATCH_STATUS_PARTIALLY)
    allRanked := allRanked }

/-! ### Planner: demand aggregation -/

structure MealPlanEntry where
  id : String
  date : String
  slot : String
  recipeId : String
  portionMultiplier : ℚ
deriving DecidableEq, Repr

/-- Aggregated demand row (`requiredQuantity` is kept in raw precision while
aggregating and rounded once on output). -/
structure DemandRow where
  inventoryItemId : String
  unit : String
  requiredQuantity : ℚ
  sourceMealPlanEntryIds : List String
deriving DecidableEq, Repr

/-- `createDemandAggregationKey(ingredient)`. -/
def createDemandAggregationKey (ingredient : Ingredient) : String :=
  ingredient.inventoryItemId ++ "::" ++ ingredient.unit

/-- `roundPlannedQuantity` (planner rounding policy: 3 decimals at output). -/
def roundPlannedQuantity (value : ℚ) : ℚ := round3 value

/-- `new Map(recipes.map(r => [r.id, r]))` lookup, last entry wins. -/
def recipeLookup (recipes : List Recipe) : String → Option Recipe :=
  fun id => recipes.reverse.find? (fun recipe => recipe.id = id)

/-- The `Map` `demandByIngredient` as an insertion-ordered association list:
`has`/`set`/`get` with in-place accumulation on the existing row.  A fresh row
starts at `requiredQuantity = 0` with no source ids and is immediately bumped. -/
def upsertDemand (key : String) (ingredient : Ingredient) (scaledQuantity : ℚ)
    (entryId : String) : List (String × DemandRow) → List (String × DemandRow)
  | [] =>
    [(key,
      { inventoryItemId := ingredient.inventoryItemId
        unit := ingredient.unit
        requiredQuantity := 0 + scaledQuantity
        sourceMealPlanEntryIds := [] ++ [entryId] })]
  | (k, row) :: rest =>
    if k = key then
      (k, { row with
              requiredQuantity := row.requiredQuantity + scaledQuantity
              sourceMealPlanEntryIds := row.sourceMealPlanEntryIds ++ [entryId] }) :: rest
    else
      (k, row) :: upsertDemand key ingredient scaledQuantity entryId rest

/-- Inner `recipe.ingredients.forEach` of `aggregateIngredientDemand`. -/
def aggregateEntryIngredients (entry : MealPlanEntry) (ingredients : List Ingredient)
    (demand : List (String × DemandRow)) : List (String × DemandRow) :=
  ingredients.foldl
    (fun demand ingredient =>
      upsertDemand (createDemandAggregationKey ingredient) ingredient
        (ingredient.quantity * entry.portionMultiplier) entry.id demand)
    demand

/-- Outer `mealPlanEntries.forEach` of `aggregateIngredientDemand`: entries whose
recipe no longer exists are skipped silently. -/
def aggregateStep (recipeById : String → Option Recipe)
    (demand : List (String × DemandRow)) (entry : MealPlanEntry) :
    List (String × DemandRow) :=
  match recipeById entry.recipeId with
  | none => demand
  | some recipe => aggregateEntryIngredients entry recipe.ingredients demand

/-- `aggregateIngredientDemand(mealPlanEntries, recipes)`. -/
def aggregateIngredientDemand (mealPlanEntries : List MealPlanEntry)
    (recipes : List Recipe) : List DemandRow :=
  let recipeById := recipeLookup recipes
  let demandByIngredient := mealPlanEntries.foldl (aggregateStep recipeById) []
  demandByIngredient.map
    (fun kv => { kv.2 with requiredQuantity := roundPlannedQuantity kv.2.requiredQuantity })

/-! ### Shopping list generation -/

/-- `computeMissingQuantity(required, available)`. -/
def computeMissingQuantity (requiredQuantity availableQuantity : ℚ) : ℚ :=
  max (requiredQuantity - availableQuantity) 0

structure ShoppingItem where
  id : String
  ingredientName : String
  inventoryItemId : String
  requiredQuantity : ℚ
  availableQuantity : ℚ
  missingQuantity : ℚ
  unit : String
  storeSection : String
  sourceMealPlanEntryIds : List String
deriving DecidableEq, Repr

/-- `hasComparableUnit(inventoryItem, demand)`: the persisted unit token must be
identical to the demand row's token; a missing item is never comparable. -/
def hasComparableUnit (inventoryItem : Option InventoryItem) (demand : DemandRow) : Bool :=
  match inventoryItem with
  | none => false
  | some item => item.unit = demand.unit

/-- `roundShoppingQuantity(value)`: 3-decimal output rounding. -/
def roundShoppingQuantity (value : ℚ) : ℚ := round3 value

/-- `CATEGORY_TO_STORE_SECTION[category] || 'other'` after lower-casing; the
lower-casing itself (`toLowerCase`) is `String.toLower`. -/
def categoryToStoreSection (category : String) : String :=
  match category with
  | "fruit" => "produce"
  | "vegetable" => "produce"
  | "produce" => "produce"
  | "dairy" => "dairy-and-fridge"
  | "fridge" => "dairy-and-fridge"
  | "meat" => "meat-and-seafood"
  | "seafood" => "meat-and-seafood"
  | "bakery" => "bakery"
  | "frozen" => "frozen"
  | "baking" => "pantry"
  | "grain" => "pantry"
  | "canned" => "pantry"
  | "spice" => "pantry"
  | "oil" => "pantry"
  | "beverage" => "beverages"
  | "drinks" => "beverages"
  | "cleaning" => "household"
  | _ => "other"

/-- `resolveStoreSection(inventoryItem)`. -/
def resolveStoreSection (inventoryItem : Option InventoryItem) : String :=
  match inventoryItem with
  | none => categoryToStoreSection ""
  | some item => categoryToStoreSection item.category.toLower

/-- Body of the `.map` in `generateShoppingItems`: build one candidate item from
a demand row. -/
def buildShoppingItem (inventoryById : String → Option InventoryItem)
    (demand : DemandRow) : ShoppingItem :=
  let inventoryItem := inventoryById demand.inventoryItemId
  let availableQuantity : ℚ :=
    if hasComparableUnit inventoryItem demand then
      match inventoryItem with
      | some item => item.quantity
      | none => 0
    else 0
  let requiredQuantity := roundShoppingQuantity demand.requiredQuantity
  let roundedAvailable := roundShoppingQuantity availableQuantity
  let missingQuantity :=
    roundShoppingQuantity (computeMissingQuantity requiredQuantity roundedAvailable)
  { id := "shop_" ++ demand.inventoryItemId ++ "_" ++ demand.unit
    ingredientName :=
      match inventoryItem with
      | some item => item.name
      | none => demand.inventoryItemId
    inventoryItemId := demand.inventoryItemId
    requiredQuantity := requiredQuantity
    availableQuantity := roundedAvailable
    missingQuantity := missingQuantity
    unit := demand.unit
    storeSection := resolveStoreSection inventoryItem
    sourceMealPlanEntryIds := demand.sourceMealPlanEntryIds }

/-- `generateShoppingItems(ingredientDemand, inventoryItems)`. -/
def generateShoppingItems (ingredientDemand : List DemandRow)
    (inventoryItems : List InventoryItem) : List ShoppingItem :=
  let inventoryById := inventoryLookup inventoryItems
  (ingredientDemand.map (buildShoppingItem inventoryById)).filter
    (fun item => item.missingQuantity > 0)

/-! ### Sync envelopes: comparison and migration -/

def SYNC_SCHEMA_VERSION : ℚ := 1

/-- The model of the empty JavaScript object literal used as a fallback state. -/
def emptyStateObject : String := "\x7b\x7d"

/-- A sync envelope as an arbitrary JavaScript object (`any`):
  * `schemaVersion`: `some v` models a value with `Number(x) = v`; `none` models
    a value whose `Number` coercion is `NaN` (falsy, hence `|| 0` gives `0`).
  * the string fields use `""` for absent/falsy;
  * `state` is `some s` when `typeof state === 'object' && state !== null`
    (`s` an opaque serialization), `none` otherwise. -/
structure RawEnvelope where
  schemaVersion : Option ℚ
  exportedAtUtc : String
  exportedAt : String
  deviceId : String
  source : String
  state : Option String
deriving DecidableEq, Repr

/-- `Number(envelope.schemaVersion) || 0`. -/
def effectiveSchemaVersion (envelope : RawEnvelope) : ℚ :=
  match envelope.schemaVersion with
  | none => 0
  | some v => v

/-- `createSyncEnvelope(state, options)`; the resolved `now.toISOString()` string
is the `nowIso` parameter, and the created object has no legacy `exportedAt` key. -/
def createSyncEnvelope (nowIso : String) (state : String) (deviceId source : String) :
    RawEnvelope :=
  { schemaVersion := some SYNC_SCHEMA_VERSION
    exportedAtUtc := nowIso
    exportedAt := ""
    deviceId := jsOr deviceId "unknown-device"
    source := jsOr source "pantrymanager-web"
    state := some state }

inductive SyncWinner where
  | localSide
  | remoteSide
  | neither
deriving DecidableEq, Repr

structure CompareDecision where
  winner : SyncWinner
  reason : String
deriving DecidableEq, Repr

/-- `options.driftToleranceMs` : `some t` models a finite number `t`; `none`
models an absent or non-finite value (`Number.isFinite` fails → default 120000). -/
structure SyncCompareOptions where
  driftToleranceMs : Option ℚ
deriving DecidableEq, Repr

/-- `Number.isFinite(options.driftToleranceMs) ? options.driftToleranceMs : 120000`. -/
def resolveDriftTolerance (options : SyncCompareOptions) : ℚ :=
  match options.driftToleranceMs with
  | some t => t
  | none => 120000

/-- `compareSyncEnvelopes(localEnvelope, remoteEnvelope, options)`; `parse`
models `Date.parse`. -/
def compareSyncEnvelopes (parse : String → Option Int)
    (localEnvelope remoteEnvelope : Option RawEnvelope)
    (options : SyncCompareOptions) : CompareDecision :=
  let driftToleranceMs : ℚ := resolveDriftTolerance options
  match localEnvelope, remoteEnvelope with
  | none, none => ⟨.neither, "Both sync envelopes are absent."⟩
  | some _, none => ⟨.localSide, "Remote snapshot not found."⟩
  | none, some _ => ⟨.remoteSide, "Local snapshot not found."⟩
  | some localEnv, some remoteEnv =>
    match parse localEnv.exportedAtUtc, parse remoteEnv.exportedAtUtc with
    | some localMs, some remoteMs =>
      let deltaMs : ℚ := ((remoteMs - localMs : Int) : ℚ)
      if |deltaMs| ≤ driftToleranceMs then
        ⟨.localSide,
          "Snapshots are within clock drift tolerance; local state wins deterministic tie-breaker."⟩
      else if deltaMs > 0 then
        ⟨.remoteSide, "Remote snapshot is newer than local snapshot."⟩
      else
        ⟨.localSide, "Local snapshot is newer than remote snapshot."⟩
    | _, _ =>
      ⟨.localSide, "Malformed timestamp detected; local snapshot retained for safety."⟩

/-- `migrateSyncEnvelope(envelope)`; `none` input models a falsy or non-object
value, and `nowIso` models the `new Date().toISOString()` read in the fallback
timestamps. -/
def migrateSyncEnvelope (nowIso : String) (envelope : Option RawEnvelope) : RawEnvelope :=
  match envelope with
  | none => createSyncEnvelope nowIso emptyStateObject "" "migration-fallback"
  | some env =>
    let schemaVersion := effectiveSchemaVersion env
    if schemaVersion ≥ SYNC_SCHEMA_VERSION then
      env
    else if schemaVersion = 0 then
      { schemaVersion := some SYNC_SCHEMA_VERSION
        exportedAtUtc := jsOr env.exportedAtUtc (jsOr env.exportedAt nowIso)
        exportedAt := ""
        deviceId := jsOr env.deviceId "unknown-device"
        source := jsOr env.source "pantrymanager-web"
        state := some ((env.state).getD emptyStateObject) }
    else
      { schemaVersion := some SYNC_SCHEMA_VERSION
        exportedAtUtc := jsOr env.exportedAtUtc nowIso
        exportedAt := ""
        deviceId := jsOr env.deviceId "unknown-device"
        source := jsOr env.source "pantrymanager-web"
        state := some ((env.state).getD emptyStateObject) }

/-! ### Retention policy -/

def DAY_MS : ℚ := 24 * 60 * 60 * 1000

/-- A retention-bearing record; `""` models an absent/falsy date field. -/
structure RetRecord where
  updatedAt : String
  createdAt : String
  archivedAt : String
deriving DecidableEq, Repr

/-- The `/^\d\x7b4\x7d-\d\x7b2\x7d-\d\x7b2\x7d$/` date-only test. -/
def isDateOnly (raw : String) : Bool :=
  match raw.data with
  | [y1, y2, y3, y4, h1, m1, m2, h2, d1, d2] =>
    y1.isDigit && y2.isDigit && y3.isDigit && y4.isDigit && h1 = '-' &&
      m1.isDigit && m2.isDigit && h2 = '-' && d1.isDigit && d2.isDigit
  | _ => false

/-- `parseUtcMs(raw)`: falsy → `null`; date-only strings get a UTC-midnight time
suffix before `Date.parse`. -/
def parseUtcMs (parse : String → Option Int) (raw : String) : Option Int :=
  if raw = "" then none
  else parse (if isDateOnly raw then raw ++ "T00:00:00.000Z" else raw)

/-- `parseUtcMs(record.updatedAt) ?? parseUtcMs(record.createdAt)`. -/
def effectiveUpdatedAtMs (parse : String → Option Int) (record : RetRecord) : Option Int :=
  match parseUtcMs parse record.updatedAt with
  | some ms => some ms
  | none => parseUtcMs parse record.createdAt

/-- `shouldArchiveRecord(record, nowMs, archiveAfterMs)`. -/
def shouldArchiveRecord (parse : String → Option Int) (record : RetRecord) (nowMs : Int)
    (archiveAfterMs : ℚ) : Bool :=
  if record.archivedAt ≠ "" then false
  else
    match effectiveUpdatedAtMs parse record with
    | none => false
    | some updatedAtMs => ((nowMs - updatedAtMs : Int) : ℚ) ≥ archiveAfterMs

/-- `shouldDeleteArchivedRecord(record, nowMs, deleteAfterArchiveMs)`. -/
def shouldDeleteArchivedRecord (parse : String → Option Int) (record : RetRecord)
    (nowMs : Int) (deleteAfterArchiveMs : ℚ) : Bool :=
  match parseUtcMs parse record.archivedAt with
  | none => false
  | some archivedAtMs => ((nowMs - archivedAtMs : Int) : ℚ) ≥ deleteAfterArchiveMs

structure RetentionOutput where
  active : List RetRecord
  archived : List RetRecord
  deleted : List RetRecord
deriving DecidableEq, Repr

/-- The record loop of `applyGeneralRetention`, after resolving the windows to
milliseconds.  `isoOf` models `new Date(nowMs).toISOString()` for the archive
stamp. -/
def applyGeneralRetentionCore (parse : String → Option Int) (isoOf : Int → String)
    (nowMs : Int) (archiveAfterMs deleteAfterArchiveMs : ℚ) :
    List RetRecord → RetentionOutput
  | [] => ⟨[], [], []⟩
  | record :: rest =>
    let out := applyGeneralRetentionCore parse isoOf nowMs archiveAfterMs
      deleteAfterArchiveMs rest
    if shouldDeleteArchivedRecord parse record nowMs deleteAfterArchiveMs then
      { out with deleted := record :: out.deleted }
    else if shouldArchiveRecord parse record nowMs archiveAfterMs then
      { out with archived := { record with archivedAt := isoOf nowMs } :: out.archived }
    else if record.archivedAt ≠ "" then
      { out with archived := record :: out.archived }
    else
      { out with active := record :: out.active }

/-- Options of `applyGeneralRetention`; the day counts are `some d` for an
explicitly passed number `d` and `none` for absent (or `NaN`, which `|| 30`
treats the same as any other falsy value). -/
structure RetentionOptions where
  now : Int
  archiveAfterDays : Option ℚ
  deleteAfterArchiveDays : Option ℚ
deriving DecidableEq, Repr

/-- `(options.archiveAfterDays || 30)`: the only falsy finite number is `0`. -/
def resolveRetentionDays (days : Option ℚ) : ℚ :=
  match days with
  | none => 30
  | some d => if d = 0 then 30 else d

/-- `applyGeneralRetention(records, options)`. -/
def applyGeneralRetention (parse : String → Option Int) (isoOf : Int → String)
    (records : List RetRecord) (options : RetentionOptions) : RetentionOutput :=
  applyGeneralRetentionCore parse isoOf options.now
    (resolveRetentionDays options.archiveAfterDays * DAY_MS)
    (resolveRetentionDays options.deleteAfterArchiveDays * DAY_MS)
    records

/-! ## Claim C5: unit conversion failure conditions and success values -/

/-- C5 counterexample: the claim says that on success both converters return the
quantity multiplied by the unit's to-base factor, but `normalizeToFamilyBase`
additionally rounds through `Number((...).toFixed(6))`: at quantity `1e-7` with
unit `g` (factor 1) it returns `0`, not `1e-7`. -/
theorem C5_family_quantity_counterexample :
    normalizeToFamilyBase (1 / 10000000) "g" = .ok "mass" "g" 0 ∧
      (0 : ℚ) ≠ (1 / 10000000 : ℚ) * 1 := by
  constructor
  · show normalizeToFamilyBase (1 / 10000000) "g" = .ok "mass" "g" 0
    unfold normalizeToFamilyBase getUnitMeta UNIT_MAP round6
    norm_num [round_eq]
  · norm_num

/-- C5 (amended): conversion fails exactly when the unit token is unregistered
(`Unsupported unit`, checked first) or the quantity is invalid, with bound
`≥ 0` in `normalizeToBase` (quantity 0 succeeds) and `> 0` in
`normalizeToFamilyBase` (quantity 0 fails); on success `normalizeToBase`
returns the family, the family's base unit and `quantity * toBaseFactor`, while
`normalizeToFamilyBase` returns that product rounded to 6 decimals. -/
theorem C5_conversion_failure_and_success (q : ℚ) (u : String) :
    ((normalizeToBase q u).isOk = false ↔ (UNIT_TO_BASE u = none ∨ q < 0))
    ∧ (UNIT_TO_BASE u = none →
        normalizeToBase q u =
          .err ("Unsupported unit: " ++ (if u = "" then "(empty)" else u) ++ "."))
    ∧ (∀ m, UNIT_TO_BASE u = some m → ¬ q < 0 →
        normalizeToBase q u = .ok m.family m.baseUnit (q * m.toBaseFactor))
    ∧ (UNIT_TO_BASE u ≠ none → (normalizeToBase 0 u).isOk = true)
    ∧ ((normalizeToFamilyBase q u).isOk = false ↔ (getUnitMeta u = none ∨ q ≤ 0))
    ∧ (getUnitMeta u = none →
        normalizeToFamilyBase q u =
          .err ("Unsupported unit " ++ (if u = "" then "(empty)" else u) ++ "."))
    ∧ (∀ m, getUnitMeta u = some m → ¬ q ≤ 0 →
        normalizeToFamilyBase q u = .ok m.family m.baseUnit (round6 (q * m.toBaseFactor)))
    ∧ (getUnitMeta u ≠ none → (normalizeToFamilyBase 0 u).isOk = false) := by
  refine ⟨?_, ?_, ?_, ?_, ?_, ?_, ?_, ?_⟩
  · cases hU : UNIT_TO_BASE u with
    | none => simp [normalizeToBase, hU, NormalizeResult.isOk]
    | some m =>
      by_cases hq : q < 0 <;> simp [normalizeToBase, hU, hq, NormalizeResult.isOk]
  · intro hU
    simp [normalizeToBase, hU]
  · intro m hU hq
    simp [normalizeToBase, hU, hq]
  · intro hU
    cases hU' : UNIT_TO_BASE u with
    | none => exact absurd hU' hU
    | some m => simp [normalizeToBase, hU', NormalizeResult.isOk]
  · cases hU : getUnitMeta u with
    | none => simp [normalizeToFamilyBase, hU, NormalizeResult.isOk]
    | some m =>
      by_cases hq : q ≤ 0 <;> simp [normalizeToFamilyBase, hU, hq, NormalizeResult.isOk]
  · intro hU
    simp [normalizeToFamilyBase, hU]
  · intro m hU hq
    simp [normalizeToFamilyBase, hU, hq]
  · intro hU
    cases hU' : getUnitMeta u with
    | none => exact absurd hU' hU
    | some m => simp [normalizeToFamilyBase, hU', NormalizeResult.isOk]

/-- Witness for C5: concrete evaluation through the amended theorem. -/
theorem C5_conversion_failure_and_success_witness :
    UNIT_TO_BASE "kg" = some ⟨"mass", "g", 1000⟩ ∧ ¬ (2 : ℚ) < 0 ∧
      normalizeToBase 2 "kg" = .ok "mass" "g" (2 * 1000) :=
  ⟨rfl, by norm_num,
    (C5_conversion_failure_and_success 2 "kg").2.2.1 ⟨"mass", "g", 1000⟩ rfl (by norm_num)⟩

/-! ## Claim C8: migration idempotence -/

/-- C8: every envelope whose (coerced) schema version is at least the current
schema version 1 passes through `migrateSyncEnvelope` unchanged, and migration
is idempotent: re-migrating any migration output returns it unchanged, for any
pair of fallback clock readings. -/
theorem C8_migrate_idempotent (nowIso nowIso2 : String) (envelope : Option RawEnvelope) :
    (∀ env : RawEnvelope, effectiveSchemaVersion env ≥ SYNC_SCHEMA_VERSION →
      migrateSyncEnvelope nowIso (some env) = env)
    ∧ migrateSyncEnvelope nowIso2 (some (migrateSyncEnvelope nowIso envelope)) =
        migrateSyncEnvelope nowIso envelope := by
  have pass : ∀ (iso : String) (env : RawEnvelope),
      effectiveSchemaVersion env ≥ SYNC_SCHEMA_VERSION →
        migrateSyncEnvelope iso (some env) = env := by
    intro iso env h
    simp [migrateSyncEnvelope, h]
  refine ⟨pass nowIso, ?_⟩
  cases envelope with
  | none =>
    apply pass
    simp [effectiveSchemaVersion, migrateSyncEnvelope, createSyncEnvelope]
  | some env =>
    by_cases h : effectiveSchemaVersion env ≥ SYNC_SCHEMA_VERSION
    · rw [pass nowIso env h]
      exact pass nowIso2 env h
    · apply pass
      by_cases h0 : effectiveSchemaVersion env = 0
      · have hm : migrateSyncEnvelope nowIso (some env) =
            { schemaVersion := some SYNC_SCHEMA_VERSION
              exportedAtUtc := jsOr env.exportedAtUtc (jsOr env.exportedAt nowIso)
              exportedAt := ""
              deviceId := jsOr env.deviceId "unknown-device"
              source := jsOr env.source "pantrymanager-web"
              state := some (env.state.getD emptyStateObject) } := by
          simp only [migrateSyncEnvelope]
          rw [if_neg h, if_pos h0]
        rw [hm]
        simp [effectiveSchemaVersion]
      · have hm : migrateSyncEnvelope nowIso (some env) =
            { schemaVersion := some SYNC_SCHEMA_VERSION
              exportedAtUtc := jsOr env.exportedAtUtc nowIso
              exportedAt := ""
              deviceId := jsOr env.deviceId "unknown-device"
              source := jsOr env.source "pantrymanager-web"
              state := some (env.state.getD emptyStateObject) } := by
          simp only [migrateSyncEnvelope]
          rw [if_neg h, if_neg h0]
        rw [hm]
        simp [effectiveSchemaVersion]

/-- Witness for C8: a schema-version-2 envelope passes through unchanged. -/
theorem C8_migrate_idempotent_witness :
    effectiveSchemaVersion ⟨some 2, "t0", "", "d", "s", some "\x7b\x7d"⟩ ≥ SYNC_SCHEMA_VERSION
    ∧ migrateSyncEnvelope "now" (some ⟨some 2, "t0", "", "d", "s", some "\x7b\x7d"⟩) =
        ⟨some 2, "t0", "", "d", "s", some "\x7b\x7d"⟩ :=
  ⟨by norm_num [effectiveSchemaVersion, SYNC_SCHEMA_VERSION],
    (C8_migrate_idempotent "now" "x" none).1 _
      (by norm_num [effectiveSchemaVersion, SYNC_SCHEMA_VERSION])⟩

/-! ## Claim C3: sync envelope comparison -/

/-- C3 counterexample: with a negative drift tolerance the claim's description
of the remote-wins region (`delta > driftToleranceMs`) disagrees with the code
(`delta > 0`): tolerance `-5`, `localMs = 0`, `remoteMs = -3` give
`delta = -3 > -5` outside the `|delta| ≤ tolerance` band, yet the code answers
`local`. -/
theorem C3_negative_tolerance_counterexample :
    (compareSyncEnvelopes
        (fun s => if s = "L" then some 0 else if s = "R" then some (-3) else none)
        (some ⟨some 1, "L", "", "d", "s", none⟩)
        (some ⟨some 1, "R", "", "d", "s", none⟩)
        ⟨some (-5)⟩).winner = SyncWinner.localSide
    ∧ ¬ (|((((-3 : Int) - 0 : Int)) : ℚ)| ≤ (-5 : ℚ))
    ∧ ((((-3 : Int) - 0 : Int)) : ℚ) > (-5 : ℚ) := by
  refine ⟨by decide, by norm_num, by norm_num⟩

/-- Reduction of `compareSyncEnvelopes` when both envelopes are present and
both timestamps parse. -/
theorem compareSyncEnvelopes_some_some (parse : String → Option Int)
    (le re : RawEnvelope) (options : SyncCompareOptions) (lm rm : Int)
    (hl : parse le.exportedAtUtc = some lm) (hr : parse re.exportedAtUtc = some rm) :
    compareSyncEnvelopes parse (some le) (some re) options =
      if |((rm - lm : Int) : ℚ)| ≤ resolveDriftTolerance options then
        ⟨.localSide,
          "Snapshots are within clock drift tolerance; local state wins deterministic tie-breaker."⟩
      else if ((rm - lm : Int) : ℚ) > 0 then
        ⟨.remoteSide, "Remote snapshot is newer than local snapshot."⟩
      else ⟨.localSide, "Local snapshot is newer than remote snapshot."⟩ := by
  simp only [compareSyncEnvelopes, hl, hr]

/-- C3 (amended): `compareSyncEnvelopes` returns winner `none` when both
envelopes are absent; the present side when exactly one is present; `local`
when either `exportedAtUtc` fails to parse; and with both parsed and
`delta = remoteMs − localMs`, `local` when `|delta| ≤ driftToleranceMs`,
`remote` when `|delta| > driftToleranceMs` and `delta > 0` (for a nonnegative
tolerance this is exactly `delta > driftToleranceMs`), and `local` otherwise;
in particular any envelope compared with itself at tolerance 0 yields `local`. -/
theorem C3_compare_envelopes (parse : String → Option Int)
    (l r : Option RawEnvelope) (options : SyncCompareOptions) :
    ((l = none ∧ r = none) →
      (compareSyncEnvelopes parse l r options).winner = SyncWinner.neither)
    ∧ (∀ le, l = some le → r = none →
        (compareSyncEnvelopes parse l r options).winner = SyncWinner.localSide)
    ∧ (∀ re, l = none → r = some re →
        (compareSyncEnvelopes parse l r options).winner = SyncWinner.remoteSide)
    ∧ (∀ le re, l = some le → r = some re →
        ((parse le.exportedAtUtc = none ∨ parse re.exportedAtUtc = none) →
          (compareSyncEnvelopes parse l r options).winner = SyncWinner.localSide)
        ∧ (∀ lm rm, parse le.exportedAtUtc = some lm → parse re.exportedAtUtc = some rm →
            ((|((rm - lm : Int) : ℚ)| ≤ resolveDriftTolerance options) →
              (compareSyncEnvelopes parse l r options).winner = SyncWinner.localSide)
            ∧ ((¬ |((rm - lm : Int) : ℚ)| ≤ resolveDriftTolerance options) →
                ((rm - lm : Int) : ℚ) > 0 →
                (compareSyncEnvelopes parse l r options).winner = SyncWinner.remoteSide)
            ∧ ((¬ |((rm - lm : Int) : ℚ)| ≤ resolveDriftTolerance options) →
                ¬ ((rm - lm : Int) : ℚ) > 0 →
                (compareSyncEnvelopes parse l r options).winner = SyncWinner.localSide)))
    ∧ (∀ env : RawEnvelope,
        (compareSyncEnvelopes parse (some env) (some env) ⟨some 0⟩).winner =
          SyncWinner.localSide) := by
  refine ⟨?_, ?_, ?_, ?_, ?_⟩
  · rintro ⟨rfl, rfl⟩
    rfl
  · rintro le rfl rfl
    rfl
  · rintro re rfl rfl
    rfl
  · rintro le re rfl rfl
    constructor
    · rintro (hp | hp)
      · cases hr : parse re.exportedAtUtc <;> simp [compareSyncEnvelopes, hp, hr]
      · cases hl : parse le.exportedAtUtc <;> simp [compareSyncEnvelopes, hp, hl]
    · intro lm rm hl hr
      refine ⟨?_, ?_, ?_⟩
      · intro hband
        rw [compareSyncEnvelopes_some_some parse le re options lm rm hl hr, if_pos hband]
      · intro hband hpos
        rw [compareSyncEnvelopes_some_some parse le re options lm rm hl hr, if_neg hband,
          if_pos hpos]
      · intro hband hpos
        rw [compareSyncEnvelopes_some_some parse le re options lm rm hl hr, if_neg hband,
          if_neg hpos]
  · intro env
    cases hp : parse env.exportedAtUtc with
    | none => simp [compareSyncEnvelopes, hp]
    | some m =>
      rw [compareSyncEnvelopes_some_some parse env env ⟨some 0⟩ m m hp hp]
      norm_num [resolveDriftTolerance]

/-- Witness for C3: a remote snapshot 10 minutes newer than local at tolerance
1000ms wins. -/
theorem C3_compare_envelopes_witness :
    (compareSyncEnvelopes
        (fun s => if s = "L" then some 0 else if s = "R" then some 600000 else none)
        (some ⟨some 1, "L", "", "d", "s", none⟩)
        (some ⟨some 1, "R", "", "d", "s", none⟩)
        ⟨some 1000⟩).winner = SyncWinner.remoteSide :=
  (((C3_compare_envelopes
      (fun s => if s = "L" then some 0 else if s = "R" then some 600000 else none)
      (some ⟨some 1, "L", "", "d", "s", none⟩)
      (some ⟨some 1, "R", "", "d", "s", none⟩)
      ⟨some 1000⟩).2.2.2.1 _ _ rfl rfl).2 0 600000 (by simp) (by simp)).2.1
    (by norm_num [resolveDriftTolerance]) (by norm_num)

/-! ## Claim C10: zero-day retention windows collapse to the 30-day default -/

/-- C10: `options.archiveAfterDays || 30` and `options.deleteAfterArchiveDays || 30`
send an explicit `0` to the 30-day default, so retention output with a 0-day
window equals output with a 30-day window, and no option value can produce a
0-day resolved window. -/
theorem C10_zero_day_window_is_default (parse : String → Option Int)
    (isoOf : Int → String) (records : List RetRecord) (now : Int)
    (archOpt delOpt : Option ℚ) :
    applyGeneralRetention parse isoOf records ⟨now, some 0, delOpt⟩ =
        applyGeneralRetention parse isoOf records ⟨now, some 30, delOpt⟩
    ∧ applyGeneralRetention parse isoOf records ⟨now, archOpt, some 0⟩ =
        applyGeneralRetention parse isoOf records ⟨now, archOpt, some 30⟩
    ∧ (∀ o : Option ℚ, resolveRetentionDays o ≠ 0) := by
  have h0 : resolveRetentionDays (some 0) = resolveRetentionDays (some 30) := by
    norm_num [resolveRetentionDays]
  refine ⟨?_, ?_, ?_⟩
  · unfold applyGeneralRetention
    rw [h0]
  · unfold applyGeneralRetention
    rw [h0]
  · intro o
    cases o with
    | none => norm_num [resolveRetentionDays]
    | some d =>
      by_cases hd : d = 0 <;> simp [resolveRetentionDays, hd]

/-- Witness for C10: concrete evaluation of the window collapse. -/
theorem C10_zero_day_window_is_default_witness :
    applyGeneralRetention (fun _ => none) (fun _ => "t") [⟨"", "", ""⟩] ⟨0, some 0, none⟩ =
      applyGeneralRetention (fun _ => none) (fun _ => "t") [⟨"", "", ""⟩] ⟨0, some 30, none⟩ :=
  (C10_zero_day_window_is_default (fun _ => none) (fun _ => "t") [⟨"", "", ""⟩] 0
    none none).1

/-! ## Claim C4: unparseable dates and the retention buckets -/

/-- Unfolding equation of `applyGeneralRetentionCore` on a cons cell, with the
recursive call left folded. -/
theorem retentionCore_cons (parse : String → Option Int) (isoOf : Int → String)
    (nowMs : Int) (aMs dMs : ℚ) (s : RetRecord) (rest : List RetRecord) :
    applyGeneralRetentionCore parse isoOf nowMs aMs dMs (s :: rest) =
      (if shouldDeleteArchivedRecord parse s nowMs dMs then
        { applyGeneralRetentionCore parse isoOf nowMs aMs dMs rest with
          deleted := s :: (applyGeneralRetentionCore parse isoOf nowMs aMs dMs rest).deleted }
      else if shouldArchiveRecord parse s nowMs aMs then
        { applyGeneralRetentionCore parse isoOf nowMs aMs dMs rest with
          archived := { s with archivedAt := isoOf nowMs } ::
            (applyGeneralRetentionCore parse isoOf nowMs aMs dMs rest).archived }
      else if s.archivedAt ≠ "" then
        { applyGeneralRetentionCore parse isoOf nowMs aMs dMs rest with
          archived := s :: (applyGeneralRetentionCore parse isoOf nowMs aMs dMs rest).archived }
      else
        { applyGeneralRetentionCore parse isoOf nowMs aMs dMs rest with
          active := s :: (applyGeneralRetentionCore parse isoOf nowMs aMs dMs rest).active }) :=
  rfl

/-- Every record placed in the `deleted` bucket passed
`shouldDeleteArchivedRecord`. -/
theorem mem_deleted_shouldDelete (parse : String → Option Int) (isoOf : Int → String)
    (nowMs : Int) (aMs dMs : ℚ) :
    ∀ (records : List RetRecord) (r : RetRecord),
      r ∈ (applyGeneralRetentionCore parse isoOf nowMs aMs dMs records).deleted →
      shouldDeleteArchivedRecord parse r nowMs dMs = true := by
  intro records
  induction records with
  | nil => intro r h; simp [applyGeneralRetentionCore] at h
  | cons s rest ih =>
    intro r h
    rw [retentionCore_cons] at h
    by_cases hdel : shouldDeleteArchivedRecord parse s nowMs dMs
    · rw [if_pos hdel] at h
      rcases List.mem_cons.mp h with rfl | h
      · exact hdel
      · exact ih r h
    · rw [if_neg hdel] at h
      by_cases harch : shouldArchiveRecord parse s nowMs aMs
      · rw [if_pos harch] at h
        exact ih r h
      · rw [if_neg harch] at h
        by_cases hA : s.archivedAt ≠ ""
        · rw [if_pos hA] at h
          exact ih r h
        · rw [if_neg hA] at h
          exact ih r h

/-- Each bucket of the retention output only grows when a record is prepended
to the input. -/
theorem retentionCore_cons_subset (parse : String → Option Int) (isoOf : Int → String)
    (nowMs : Int) (aMs dMs : ℚ) (s : RetRecord) (rest : List RetRecord) :
    (∀ r, r ∈ (applyGeneralRetentionCore parse isoOf nowMs aMs dMs rest).active →
      r ∈ (applyGeneralRetentionCore parse isoOf nowMs aMs dMs (s :: rest)).active)
    ∧ (∀ r, r ∈ (applyGeneralRetentionCore parse isoOf nowMs aMs dMs rest).archived →
        r ∈ (applyGeneralRetentionCore parse isoOf nowMs aMs dMs (s :: rest)).archived) := by
  rw [retentionCore_cons]
  by_cases hdel : shouldDeleteArchivedRecord parse s nowMs dMs
  · rw [if_pos hdel]
    exact ⟨fun r h => h, fun r h => h⟩
  · rw [if_neg hdel]
    by_cases harch : shouldArchiveRecord parse s nowMs aMs
    · rw [if_pos harch]
      exact ⟨fun r h => h, fun r h => List.mem_cons_of_mem _ h⟩
    · rw [if_neg harch]
      by_cases hA : s.archivedAt ≠ ""
      · rw [if_pos hA]
        exact ⟨fun r h => h, fun r h => List.mem_cons_of_mem _ h⟩
      · rw [if_neg hA]
        exact ⟨fun r h => List.mem_cons_of_mem _ h, fun r h => h⟩

/-- C4 counterexample: the claim puts every record with unparseable date fields
in the `active` output.  (i) A record whose `archivedAt` is present but
unparseable lands in `archived`, not `active`; (ii) a record with unparseable
`updatedAt` but an old parseable `archivedAt` is deleted. -/
theorem C4_unparseable_dates_counterexample :
    (applyGeneralRetention
        (fun s => if s = "2020-01-01T00:00:00.000Z" then some 0 else none)
        (fun _ => "stamp") [⟨"", "", "bogus"⟩] ⟨2592000000, none, none⟩).active = []
    ∧ (applyGeneralRetention
        (fun s => if s = "2020-01-01T00:00:00.000Z" then some 0 else none)
        (fun _ => "stamp") [⟨"", "", "bogus"⟩] ⟨2592000000, none, none⟩).archived =
        [⟨"", "", "bogus"⟩]
    ∧ (applyGeneralRetention
        (fun s => if s = "2020-01-01T00:00:00.000Z" then some 0 else none)
        (fun _ => "stamp") [⟨"bogus", "", "2020-01-01T00:00:00.000Z"⟩]
        ⟨2592000000, none, none⟩).deleted =
        [⟨"bogus", "", "2020-01-01T00:00:00.000Z"⟩] := by
  refine ⟨by decide, by decide, ?_⟩
  have hp : parseUtcMs (fun s => if s = "2020-01-01T00:00:00.000Z" then some 0 else none)
      "2020-01-01T00:00:00.000Z" = some 0 := by decide
  have hdel : shouldDeleteArchivedRecord
      (fun s => if s = "2020-01-01T00:00:00.000Z" then some 0 else none)
      ⟨"bogus", "", "2020-01-01T00:00:00.000Z"⟩ 2592000000
      (resolveRetentionDays none * DAY_MS) = true := by
    unfold shouldDeleteArchivedRecord
    simp only [hp]
    rw [decide_eq_true_eq]
    norm_num [resolveRetentionDays, DAY_MS]
  unfold applyGeneralRetention
  rw [retentionCore_cons, if_pos hdel]
  simp [applyGeneralRetentionCore]

/-- C4 (amended): a record whose `archivedAt` does not parse (absent or
unparseable) is never deleted; if its `archivedAt` is present (but unparseable)
it is kept, unchanged, in the `archived` output; if its `archivedAt` is absent
and its `updatedAt`/`createdAt` do not parse either, it is conservatively kept
in the `active` output — for every now and every archive/delete window. -/
theorem C4_unparseable_dates_kept (parse : String → Option Int) (isoOf : Int → String)
    (records : List RetRecord) (options : RetentionOptions) (r : RetRecord)
    (hmem : r ∈ records) (hA : parseUtcMs parse r.archivedAt = none) :
    r ∉ (applyGeneralRetention parse isoOf records options).deleted
    ∧ (r.archivedAt ≠ "" → r ∈ (applyGeneralRetention parse isoOf records options).archived)
    ∧ (r.archivedAt = "" → effectiveUpdatedAtMs parse r = none →
        r ∈ (applyGeneralRetention parse isoOf records options).active) := by
  have hdelr : shouldDeleteArchivedRecord parse r options.now
      (resolveRetentionDays options.deleteAfterArchiveDays * DAY_MS) = false := by
    unfold shouldDeleteArchivedRecord
    rw [hA]
  refine ⟨?_, ?_, ?_⟩
  · intro hmemDel
    have := mem_deleted_shouldDelete parse isoOf options.now
      (resolveRetentionDays options.archiveAfterDays * DAY_MS)
      (resolveRetentionDays options.deleteAfterArchiveDays * DAY_MS) records r hmemDel
    rw [hdelr] at this
    exact Bool.false_ne_true this
  · intro hArchPresent
    unfold applyGeneralRetention
    induction records with
    | nil => simp at hmem
    | cons s rest ih =>
      rcases List.mem_cons.mp hmem with rfl | hmem'
      · rw [retentionCore_cons]
        rw [if_neg (by rw [hdelr]; exact Bool.false_ne_true)]
        have harch : shouldArchiveRecord parse r options.now
            (resolveRetentionDays options.archiveAfterDays * DAY_MS) = false := by
          unfold shouldArchiveRecord
          rw [if_pos hArchPresent]
        rw [if_neg (by rw [harch]; exact Bool.false_ne_true), if_pos hArchPresent]
        exact List.mem_cons_self _ _
      · exact (retentionCore_cons_subset parse isoOf options.now _ _ s rest).2 r (ih hmem')
  · intro hArchAbsent hUpd
    unfold applyGeneralRetention
    induction records with
    | nil => simp at hmem
    | cons s rest ih =>
      rcases List.mem_cons.mp hmem with rfl | hmem'
      · rw [retentionCore_cons]
        rw [if_neg (by rw [hdelr]; exact Bool.false_ne_true)]
        have harch : shouldArchiveRecord parse r options.now
            (resolveRetentionDays options.archiveAfterDays * DAY_MS) = false := by
          unfold shouldArchiveRecord
          rw [if_neg (by rw [hArchAbsent]; simp), hUpd]
        rw [if_neg (by rw [harch]; exact Bool.false_ne_true),
          if_neg (by rw [hArchAbsent]; simp)]
        exact List.mem_cons_self _ _
      · exact (retentionCore_cons_subset parse isoOf options.now _ _ s rest).1 r (ih hmem')

/-- Witness for C4: a record with absent dates stays active. -/
theorem C4_unparseable_dates_kept_witness :
    (⟨"", "", ""⟩ : RetRecord) ∈ [(⟨"", "", ""⟩ : RetRecord)]
    ∧ parseUtcMs (fun _ => none) (RetRecord.archivedAt ⟨"", "", ""⟩) = none
    ∧ (⟨"", "", ""⟩ : RetRecord) ∈
        (applyGeneralRetention (fun _ => none) (fun _ => "t") [⟨"", "", ""⟩]
          ⟨0, none, none⟩).active :=
  ⟨by decide, by decide,
    (C4_unparseable_dates_kept (fun _ => none) (fun _ => "t") [⟨"", "", ""⟩]
      ⟨0, none, none⟩ ⟨"", "", ""⟩ (by decide) (by decide)).2.2 rfl (by decide)⟩

/-! ## Claim C6: shopping item derivation -/

/-- C6: for every demand row the available quantity is the matched inventory
item's quantity only when the item exists and its persisted unit token is
identical to the row's unit token, and `0` otherwise; required/available are
3-decimal rounded, missing is the 3-decimal rounding of
`max(required − available, 0)` over the rounded fields; and only items with
`missingQuantity > 0` are emitted. -/
theorem C6_shopping_items (ingredientDemand : List DemandRow)
    (inventoryItems : List InventoryItem) :
    (∀ item ∈ generateShoppingItems ingredientDemand inventoryItems,
      0 < item.missingQuantity)
    ∧ generateShoppingItems ingredientDemand inventoryItems =
        (ingredientDemand.map (buildShoppingItem (inventoryLookup inventoryItems))).filter
          (fun item => item.missingQuantity > 0)
    ∧ (∀ demand : DemandRow,
        (buildShoppingItem (inventoryLookup inventoryItems) demand).availableQuantity =
          (match inventoryLookup inventoryItems demand.inventoryItemId with
           | some item => if item.unit = demand.unit then round3 item.quantity else 0
           | none => 0)
        ∧ (buildShoppingItem (inventoryLookup inventoryItems) demand).requiredQuantity =
            round3 demand.requiredQuantity
        ∧ (buildShoppingItem (inventoryLookup inventoryItems) demand).missingQuantity =
            round3 (max
              ((buildShoppingItem (inventoryLookup inventoryItems) demand).requiredQuantity -
                (buildShoppingItem (inventoryLookup inventoryItems) demand).availableQuantity)
              0)) := by
  refine ⟨?_, rfl, ?_⟩
  · intro item hmem
    have := List.of_mem_filter hmem
    simpa using this
  · intro demand
    have hround0 : round3 (0 : ℚ) = 0 := by
      norm_num [round3]
    refine ⟨?_, rfl, ?_⟩
    · show (buildShoppingItem (inventoryLookup inventoryItems) demand).availableQuantity = _
      unfold buildShoppingItem hasComparableUnit
      cases hit : inventoryLookup inventoryItems demand.inventoryItemId with
      | none => simp [hit, hround0, roundShoppingQuantity]
      | some item =>
        by_cases hu : item.unit = demand.unit
        · simp [hit, hu, roundShoppingQuantity]
        · simp [hit, hu, roundShoppingQuantity, hround0]
    · show (buildShoppingItem (inventoryLookup inventoryItems) demand).missingQuantity = _
      unfold buildShoppingItem
      simp [roundShoppingQuantity, computeMissingQuantity]

/-- Witness for C6: scenario 4 of the spec — demand 1.3 l against 0.2 l on
hand yields a missing quantity of 1.1, and it is positive in the output. -/
theorem C6_shopping_items_witness :
    (buildShoppingItem
        (inventoryLookup [⟨"stock", "Stock", 0.2, "l", "", "canned"⟩])
        ⟨"stock", "l", 1.3, ["e1"]⟩).availableQuantity =
      (match inventoryLookup [⟨"stock", "Stock", 0.2, "l", "", "canned"⟩] "stock" with
       | some item => if item.unit = "l" then round3 item.quantity else 0
       | none => 0) :=
  ((C6_shopping_items [⟨"stock", "l", 1.3, ["e1"]⟩]
      [⟨"stock", "Stock", 0.2, "l", "", "canned"⟩]).2.2
    ⟨"stock", "l", 1.3, ["e1"]⟩).1

/-! ## Claim C7: demand aggregation never merges across unit tokens -/

/-- Invariant of the aggregation map: keys are pairwise distinct and every key
is the composite of its row's inventory item id and unit token. -/
def DemandInv (l : List (String × DemandRow)) : Prop :=
  l.Pairwise (fun a b => a.1 ≠ b.1) ∧
    ∀ kv ∈ l, kv.1 = kv.2.inventoryItemId ++ "::" ++ kv.2.unit

theorem mem_upsertDemand (key : String) (ingredient : Ingredient) (scaled : ℚ)
    (entryId : String) :
    ∀ (l : List (String × DemandRow)) (kv : String × DemandRow),
      kv ∈ upsertDemand key ingredient scaled entryId l →
      kv.1 = key ∨ kv.1 ∈ l.map Prod.fst := by
  intro l
  induction l with
  | nil =>
    intro kv h
    simp only [upsertDemand, List.mem_singleton] at h
    subst h
    exact Or.inl rfl
  | cons hd rest ih =>
    intro kv h
    rw [upsertDemand] at h
    by_cases hk : hd.1 = key
    · rw [if_pos hk] at h
      rcases List.mem_cons.mp h with rfl | h
      · exact Or.inl hk
      · exact Or.inr (List.mem_map_of_mem _ (List.mem_cons_of_mem _ h))
    · rw [if_neg hk] at h
      rcases List.mem_cons.mp h with rfl | h
      · exact Or.inr (by simp)
      · rcases ih kv h with h' | h'
        · exact Or.inl h'
        · exact Or.inr (by simp only [List.map_cons, List.mem_cons]; exact Or.inr h')

theorem upsertDemand_inv (ingredient : Ingredient) (scaled : ℚ) (entryId : String)
    (l : List (String × DemandRow)) (hinv : DemandInv l) :
    DemandInv (upsertDemand (createDemandAggregationKey ingredient) ingredient scaled
      entryId l) := by
  induction l with
  | nil =>
    refine ⟨List.pairwise_singleton _ _, ?_⟩
    intro kv h
    simp only [upsertDemand, List.mem_singleton] at h
    subst h
    rfl
  | cons hd rest ih =>
    obtain ⟨hpw, hkeys⟩ := hinv
    rw [List.pairwise_cons] at hpw
    rw [upsertDemand]
    by_cases hk : hd.1 = createDemandAggregationKey ingredient
    · rw [if_pos hk]
      refine ⟨List.pairwise_cons.mpr ⟨hpw.1, hpw.2⟩, ?_⟩
      intro kv h
      rcases List.mem_cons.mp h with rfl | h
      · exact hkeys hd (List.mem_cons_self _ _)
      · exact hkeys kv (List.mem_cons_of_mem _ h)
    · rw [if_neg hk]
      have ihres := ih ⟨hpw.2, fun kv h => hkeys kv (List.mem_cons_of_mem _ h)⟩
      refine ⟨List.pairwise_cons.mpr ⟨?_, ihres.1⟩, ?_⟩
      · intro kv h
        rcases mem_upsertDemand _ _ _ _ _ kv h with h' | h'
        · rw [h']
          exact hk
        · rcases List.mem_map.mp h' with ⟨kv', hkv', hfst⟩
          rw [← hfst]
          exact hpw.1 kv' hkv'
      · intro kv h
        rcases List.mem_cons.mp h with rfl | h
        · exact hkeys hd (List.mem_cons_self _ _)
        · exact ihres.2 kv h

theorem aggregateEntryIngredients_inv (entry : MealPlanEntry) :
    ∀ (ingredients : List Ingredient) (l : List (String × DemandRow)),
      DemandInv l → DemandInv (aggregateEntryIngredients entry ingredients l) := by
  intro ingredients
  induction ingredients with
  | nil => intro l h; exact h
  | cons ing rest ih =>
    intro l h
    exact ih _ (upsertDemand_inv ing _ _ l h)

theorem aggregateFold_inv (recipeById : String → Option Recipe) :
    ∀ (entries : List MealPlanEntry) (l : List (String × DemandRow)),
      DemandInv l → DemandInv (entries.foldl (aggregateStep recipeById) l) := by
  intro entries
  induction entries with
  | nil => intro l h; exact h
  | cons entry rest ih =>
    intro l h
    apply ih
    unfold aggregateStep
    cases recipeById entry.recipeId with
    | none => exact h
    | some recipe => exact aggregateEntryIngredients_inv entry recipe.ingredients l h

/-- C7: `aggregateIngredientDemand` keys rows by the pair
`(inventoryItemId, unit)`: no two distinct output rows agree on both fields, so
demand for one inventory item in two different unit tokens is never merged. -/
theorem C7_demand_rows_keyed_by_item_and_unit (mealPlanEntries : List MealPlanEntry)
    (recipes : List Recipe) :
    (aggregateIngredientDemand mealPlanEntries recipes).Pairwise
      (fun r s => ¬ (r.inventoryItemId = s.inventoryItemId ∧ r.unit = s.unit)) := by
  unfold aggregateIngredientDemand
  have hinv : DemandInv (mealPlanEntries.foldl (aggregateStep (recipeLookup recipes)) []) :=
    aggregateFold_inv _ mealPlanEntries [] ⟨List.Pairwise.nil, by simp⟩
  obtain ⟨hpw, hkeys⟩ := hinv
  rw [List.pairwise_map]
  refine hpw.imp_of_mem ?_
  intro a b ha hb hne ⟨hid, hunit⟩
  apply hne
  rw [hkeys a ha, hkeys b hb, hid, hunit]

/-! ## Claims C1 and C9: evaluator match status and the empty recipe -/

/-- C1: for every recipe, inventory lookup and reference time, the evaluated
record has status `fully_satisfiable` iff its shortages list is empty; and this
is not equivalent to `coverage.ratio = 1` (witnessed by a fully satisfiable
record whose ratio is not 1). -/
theorem C1_fully_satisfiable_iff_no_shortages :
    (∀ (parse : String → Option Int) (recipe : Recipe)
        (inventoryById : String → Option InventoryItem) (now : Int),
      (evaluateRecipeRecommendation parse recipe inventoryById now).matchStatus =
          MATCH_STATUS_FULLY ↔
        (evaluateRecipeRecommendation parse recipe inventoryById now).shortages = [])
    ∧ (∃ (parse : String → Option Int) (recipe : Recipe)
        (inventoryById : String → Option InventoryItem) (now : Int),
        (evaluateRecipeRecommendation parse recipe inventoryById now).matchStatus =
            MATCH_STATUS_FULLY
        ∧ (evaluateRecipeRecommendation parse recipe inventoryById now).coverage.ratio ≠ 1) := by
  constructor
  · intro parse recipe inventoryById now
    have hne : MATCH_STATUS_PARTIALLY ≠ MATCH_STATUS_FULLY := by decide
    simp only [evaluateRecipeRecommendation]
    cases h : (List.foldl (evalStep parse inventoryById now)
        ⟨[], 0, ⊤⟩ recipe.ingredients).shortages with
    | nil => simp [h]
    | cons s rest => simp [h, hne]
  · refine ⟨fun _ => none, ⟨"r1", "Empty", []⟩, fun _ => none, 0, by decide, by decide⟩

/-- C9: a recipe with no ingredients evaluates, for every inventory lookup and
now, to a fully satisfiable record with coverage `{matched 0, total 0, ratio 0}`,
no shortages, and `+∞` urgency; placed among the candidate recipes it therefore
lands in the `fullySatisfiable` partition of `rankRecipeRecommendations`. -/
theorem C9_empty_recipe_fully_satisfiable (parse : String → Option Int)
    (inventoryById : String → Option InventoryItem) (now : Int) (id name : String)
    (recipes : List Recipe) (inventoryItems : List InventoryItem) :
    evaluateRecipeRecommendation parse ⟨id, name, []⟩ inventoryById now =
        { recipe := ⟨id, name, []⟩
          matchStatus := MATCH_STATUS_FULLY
          coverage := ⟨0, 0, 0⟩
          shortages := []
          rankingFactors := ⟨⊤, false, 0, 0⟩ }
    ∧ ((⟨id, name, []⟩ : Recipe) ∈ recipes →
        evaluateRecipeRecommendation parse ⟨id, name, []⟩ (inventoryLookup inventoryItems)
            now ∈
          (rankRecipeRecommendations parse recipes inventoryItems now).fullySatisfiable) := by
  have heval : ∀ lookup : String → Option InventoryItem,
      evaluateRecipeRecommendation parse ⟨id, name, []⟩ lookup now =
        { recipe := ⟨id, name, []⟩
          matchStatus := MATCH_STATUS_FULLY
          coverage := ⟨0, 0, 0⟩
          shortages := []
          rankingFactors := ⟨⊤, false, 0, 0⟩ } := by
    intro lookup
    rfl
  refine ⟨heval inventoryById, ?_⟩
  intro hmem
  unfold rankRecipeRecommendations
  rw [List.mem_filter]
  constructor
  · rw [List.Perm.mem_iff (List.perm_insertionSort recLE _)]
    exact List.mem_map_of_mem _ hmem
  · rw [heval (inventoryLookup inventoryItems)]
    simp

/-- Witness for C9: concrete membership of the empty recipe's record in the
fully satisfiable partition. -/
theorem C9_empty_recipe_fully_satisfiable_witness :
    (⟨"r0", "Empty", []⟩ : Recipe) ∈ [(⟨"r0", "Empty", []⟩ : Recipe)]
    ∧ evaluateRecipeRecommendation (fun _ => none) ⟨"r0", "Empty", []⟩
          (inventoryLookup []) 0 ∈
        (rankRecipeRecommendations (fun _ => none) [⟨"r0", "Empty", []⟩] [] 0).fullySatisfiable :=
  ⟨by decide,
    (C9_empty_recipe_fully_satisfiable (fun _ => none) (inventoryLookup []) 0 "r0" "Empty"
      [⟨"r0", "Empty", []⟩] []).2 (by decide)⟩

/-! ## Claim C2: the ranking comparator is a strict total order -/

theorem ordering_then_eq (o p : Ordering) :
    o.then p = Ordering.eq ↔ (o = Ordering.eq ∧ p = Ordering.eq) := by
  cases o <;> simp [Ordering.then]

theorem stringDataEq {s t : String} (h : s.data = t.data) : s = t := by
  cases s
  cases t
  cases h
  rfl

/-- The sort key read off a recommendation record by the comparator, as a
lexicographic tuple (ratio dualized because it is compared descending). -/
def recKey (a : RecommendationRecord) :
    WithTop ℤ ×ₗ (ℚᵒᵈ ×ₗ (ℕ ×ₗ (List Char ×ₗ List Char))) :=
  toLex (a.rankingFactors.daysUntilMostUrgentExpiry,
    toLex (OrderDual.toDual a.coverage.ratio,
      toLex (a.shortages.length,
        toLex (a.recipe.name.data, a.recipe.id.data))))

/-- The comparator is the `Ordering.then` chain of its five key comparisons. -/
theorem compare_eq_chain (a b : RecommendationRecord) :
    compareRecommendationRecords a b =
      (cmpo a.rankingFactors.daysUntilMostUrgentExpiry
          b.rankingFactors.daysUntilMostUrgentExpiry).then
        ((cmpo b.coverage.ratio a.coverage.ratio).then
          ((cmpo a.shortages.length b.shortages.length).then
            ((cmpo a.recipe.name.data b.recipe.name.data).then
              (cmpo a.recipe.id.data b.recipe.id.data)))) := by
  unfold compareRecommendationRecords localeCompare
  rw [step_then, step_then, step_then]
  have hmatch : (match cmpo a.recipe.name.data b.recipe.name.data with
      | Ordering.eq => cmpo a.recipe.id.data b.recipe.id.data
      | nameComparison => nameComparison) =
      (cmpo a.recipe.name.data b.recipe.name.data).then
        (cmpo a.recipe.id.data b.recipe.id.data) := by
    cases cmpo a.recipe.name.data b.recipe.name.data <;> rfl
  rw [hmatch]

/-- The comparator is `cmpo` on the lexicographic sort keys. -/
theorem compare_eq_cmpo_key (a b : RecommendationRecord) :
    compareRecommendationRecords a b = cmpo (recKey a) (recKey b) := by
  rw [compare_eq_chain]
  unfold recKey
  rw [cmpo_lex, cmpo_lex, cmpo_lex, cmpo_lex, cmpo_dual]

theorem recLE_iff_key (a b : RecommendationRecord) :
    recLE a b ↔ recKey a ≤ recKey b := by
  unfold recLE
  rw [compare_eq_cmpo_key]
  exact cmpo_ne_gt_iff

instance : IsTrans RecommendationRecord recLE :=
  ⟨fun a b c hab hbc => (recLE_iff_key a c).mpr
    (le_trans ((recLE_iff_key a b).mp hab) ((recLE_iff_key b c).mp hbc))⟩

instance : IsTotal RecommendationRecord recLE :=
  ⟨fun a b => (le_total (recKey a) (recKey b)).imp
    (recLE_iff_key a b).mpr (recLE_iff_key b a).mpr⟩

/-- The comparator answers `eq` exactly when all five key fields agree. -/
theorem compare_eq_iff_fields (a b : RecommendationRecord) :
    compareRecommendationRecords a b = Ordering.eq ↔
      (a.rankingFactors.daysUntilMostUrgentExpiry =
          b.rankingFactors.daysUntilMostUrgentExpiry
        ∧ a.coverage.ratio = b.coverage.ratio
        ∧ a.shortages.length = b.shortages.length
        ∧ a.recipe.name = b.recipe.name
        ∧ a.recipe.id = b.recipe.id) := by
  rw [compare_eq_chain, ordering_then_eq, ordering_then_eq, ordering_then_eq,
    ordering_then_eq, cmpo_eq_iff, cmpo_eq_iff, cmpo_eq_iff, cmpo_eq_iff, cmpo_eq_iff]
  constructor
  · rintro ⟨h1, h2, h3, h4, h5⟩
    exact ⟨h1, h2.symm, h3, stringDataEq h4, stringDataEq h5⟩
  · rintro ⟨h1, h2, h3, h4, h5⟩
    exact ⟨h1, h2.symm, h3, by rw [h4], by rw [h5]⟩

theorem recKey_eq_iff_compare (a b : RecommendationRecord) :
    recKey a = recKey b ↔ compareRecommendationRecords a b = Ordering.eq := by
  rw [compare_eq_cmpo_key, cmpo_eq_iff]

/-- A sorted `recLE` list maps to a `≤`-sorted key list. -/
theorem sorted_map_recKey {l : List RecommendationRecord} (h : l.Sorted recLE) :
    (l.map recKey).Sorted (· ≤ ·) := by
  rw [List.Sorted, List.pairwise_map]
  exact h.imp (fun hab => (recLE_iff_key _ _).mp hab)

/-- A permutation with equal key images and key-injectivity on members is an
equality of lists. -/
theorem perm_eq_of_map_recKey_eq :
    ∀ {l₁ l₂ : List RecommendationRecord}, l₁.Perm l₂ →
      l₁.map recKey = l₂.map recKey →
      (∀ a ∈ l₁, ∀ b ∈ l₁, recKey a = recKey b → a = b) → l₁ = l₂ := by
  intro l₁
  induction l₁ with
  | nil =>
    intro l₂ hp _ _
    exact (List.Perm.nil_eq hp).symm.symm
  | cons a t ih =>
    intro l₂ hp hm hinj
    cases l₂ with
    | nil => exact absurd hp.symm (by simp)
    | cons b t₂ =>
      simp only [List.map_cons, List.cons.injEq] at hm
      have hb_mem : b ∈ a :: t := hp.mem_iff.mpr (List.mem_cons_self b t₂)
      have hab : a = b := hinj a (List.mem_cons_self a t) b hb_mem hm.1
      subst hab
      have ht : t.Perm t₂ := hp.cons_inv
      rw [ih ht hm.2
        (fun x hx y hy => hinj x (List.mem_cons_of_mem _ hx) y (List.mem_cons_of_mem _ hy))]

/-- C2: `compareRecommendationRecords` is a strict sequential comparator over
(urgency asc, ratio desc, shortage count asc, name asc, id asc): it is
antisymmetric (`swap`), transitive and total, and answers `eq` only on fully
equal keys; `rankRecipeRecommendations` returns the evaluated records as a
permutation sorted by it, with both partitions order-preserving filters of the
ranked list; and under pairwise-distinct recipe ids the sorted output is the
unique sorted arrangement — any run producing a sorted permutation of the same
evaluations produces the identical ordering. -/
theorem C2_ranking_strict_total_order :
    (∀ a b : RecommendationRecord,
      (compareRecommendationRecords a b).swap = compareRecommendationRecords b a)
    ∧ (∀ a b c : RecommendationRecord, recLE a b → recLE b c → recLE a c)
    ∧ (∀ a b : RecommendationRecord, recLE a b ∨ recLE b a)
    ∧ (∀ a b : RecommendationRecord, compareRecommendationRecords a b = Ordering.eq →
        (a.rankingFactors.daysUntilMostUrgentExpiry =
            b.rankingFactors.daysUntilMostUrgentExpiry
          ∧ a.coverage.ratio = b.coverage.ratio
          ∧ a.shortages.length = b.shortages.length
          ∧ a.recipe.name = b.recipe.name
          ∧ a.recipe.id = b.recipe.id))
    ∧ (∀ (parse : String → Option Int) (recipes : List Recipe)
        (inventoryItems : List InventoryItem) (now : Int),
        (rankRecipeRecommendations parse recipes inventoryItems now).allRanked.Perm
          (recipes.map (fun recipe =>
            evaluateRecipeRecommendation parse recipe (inventoryLookup inventoryItems) now))
        ∧ (rankRecipeRecommendations parse recipes inventoryItems now).allRanked.Sorted recLE
        ∧ (rankRecipeRecommendations parse recipes inventoryItems now).fullySatisfiable =
            (rankRecipeRecommendations parse recipes inventoryItems now).allRanked.filter
              (fun entry => entry.matchStatus = MATCH_STATUS_FULLY)
        ∧ (rankRecipeRecommendations parse recipes inventoryItems now).partiallySatisfiable =
            (rankRecipeRecommendations parse recipes inventoryItems now).allRanked.filter
              (fun entry => entry.matchStatus = MATCH_STATUS_PARTIALLY)
        ∧ (rankRecipeRecommendations parse recipes inventoryItems
            now).fullySatisfiable.Sublist
            (rankRecipeRecommendations parse recipes inventoryItems now).allRanked
        ∧ (rankRecipeRecommendations parse recipes inventoryItems
            now).partiallySatisfiable.Sublist
            (rankRecipeRecommendations parse recipes inventoryItems now).allRanked)
    ∧ (∀ (parse : String → Option Int) (recipes : List Recipe)
        (inventoryItems : List InventoryItem) (now : Int)
        (l : List RecommendationRecord),
        l.Perm (rankRecipeRecommendations parse recipes inventoryItems now).allRanked →
        l.Sorted recLE →
        (rankRecipeRecommendations parse recipes inventoryItems now).allRanked.Pairwise
          (fun x y => x.recipe.id ≠ y.recipe.id) →
        l = (rankRecipeRecommendations parse recipes inventoryItems now).allRanked) := by
  have hswap : ∀ a b : RecommendationRecord,
      (compareRecommendationRecords a b).swap = compareRecommendationRecords b a := by
    intro a b
    rw [compare_eq_cmpo_key, compare_eq_cmpo_key, cmpo_swap]
  have hsorted : ∀ (parse : String → Option Int) (recipes : List Recipe)
      (inventoryItems : List InventoryItem) (now : Int),
      (rankRecipeRecommendations parse recipes inventoryItems now).allRanked.Sorted recLE :=
    fun parse recipes inventoryItems now => List.sorted_insertionSort recLE _
  have hperm : ∀ (parse : String → Option Int) (recipes : List Recipe)
      (inventoryItems : List InventoryItem) (now : Int),
      (rankRecipeRecommendations parse recipes inventoryItems now).allRanked.Perm
        (recipes.map (fun recipe =>
          evaluateRecipeRecommendation parse recipe (inventoryLookup inventoryItems) now)) :=
    fun parse recipes inventoryItems now => List.perm_insertionSort recLE _
  refine ⟨hswap, ?_, ?_, ?_, ?_, ?_⟩
  · exact fun a b c => IsTrans.trans a b c
  · exact fun a b => IsTotal.total a b
  · exact fun a b h => (compare_eq_iff_fields a b).mp h
  · intro parse recipes inventoryItems now
    exact ⟨hperm parse recipes inventoryItems now, hsorted parse recipes inventoryItems now,
      rfl, rfl, List.filter_sublist _, List.filter_sublist _⟩
  · intro parse recipes inventoryItems now l hpermL hsortL hids
    have hSall := hsorted parse recipes inventoryItems now
    haveI : IsAntisymm (WithTop ℤ ×ₗ (ℚᵒᵈ ×ₗ (ℕ ×ₗ (List Char ×ₗ List Char)))) (· ≤ ·) :=
      ⟨fun _ _ => le_antisymm⟩
    have hmap : l.map recKey =
        ((rankRecipeRecommendations parse recipes inventoryItems now).allRanked).map recKey :=
      List.eq_of_perm_of_sorted (hpermL.map recKey) (sorted_map_recKey hsortL)
        (sorted_map_recKey hSall)
    have hids' : ∀ a ∈ l, ∀ b ∈ l, recKey a = recKey b → a = b := by
      intro a ha b hb hk
      by_contra hne
      have haR := hpermL.mem_iff.mp ha
      have hbR := hpermL.mem_iff.mp hb
      have hidne := List.Pairwise.forall (fun {x y} h => (h ∘ Eq.symm : _)) hids haR hbR hne
      exact hidne ((compare_eq_iff_fields a b).mp
        ((recKey_eq_iff_compare a b).mp hk)).2.2.2.2
    exact perm_eq_of_map_recKey_eq hpermL hmap hids'

/-- Concrete records used by the C2 witness (urgency 1 day, 2 days, never). -/
def sampleRecordA : RecommendationRecord :=
  { recipe := ⟨"a", "A", []⟩, matchStatus := MATCH_STATUS_FULLY
    coverage := ⟨0, 0, 0⟩, shortages := []
    rankingFactors := ⟨(1 : ℤ), true, 0, 0⟩ }

def sampleRecordB : RecommendationRecord :=
  { recipe := ⟨"b", "B", []⟩, matchStatus := MATCH_STATUS_FULLY
    coverage := ⟨0, 0, 0⟩, shortages := []
    rankingFactors := ⟨(2 : ℤ), true, 0, 0⟩ }

def sampleRecordC : RecommendationRecord :=
  { recipe := ⟨"c", "C", []⟩, matchStatus := MATCH_STATUS_FULLY
    coverage := ⟨0, 0, 0⟩, shortages := []
    rankingFactors := ⟨⊤, false, 0, 0⟩ }

/-- Witness for C2: transitivity of the comparator order at concrete records. -/
theorem C2_ranking_strict_total_order_witness :
    recLE sampleRecordA sampleRecordB ∧ recLE sampleRecordB sampleRecordC ∧
      recLE sampleRecordA sampleRecordC :=
  ⟨by decide, by decide,
    C2_ranking_strict_total_order.2.1 sampleRecordA sampleRecordB sampleRecordC
      (by decide) (by decide)⟩

end Pantry
